import Mathlib

/-!
Verification of the `rmc` document-conversion utility.

This file is a shallow embedding of the two source files of the repository,
`src/rmc/cli.py` and `src/rmc/exporters/json.py`, together with theorems
settling the frozen claims about them.

Conventions of the embedding:
* Python integers and float coordinates are modelled as `Int` (every claim is
  about additive offsets, counts and table contents, never about float
  rounding); the only scaled quantities (multiplication by `72.0 / 226`)
  are modelled as `Rat`.
* Python dictionaries (the anchor-position table) are association lists with
  Python's insertion semantics: an insert of an existing key overwrites in
  place, a new key is appended.
* A Python function that can raise (the `assert` in `get_anchor`) returns
  `Option`; `none` models the raised `AssertionError` propagating.
* Output streams are modelled as the list of strings written to them, in
  order of writing.
* The pen styling model (`rmc.exporters.writing_tools.Pen`) is code of the
  repository that is not part of the examined source; it is modelled from
  the spec (see `Pen` below) and every function that consults it is
  parametrised by the pen-construction function.
-/

namespace Rmc

/-! ## CRDT identifiers and the anchor-position table -/

/-- A CRDT identifier: an author/origin counter and a per-author sequence
counter (`rmscene.CrdtId`). -/
structure CrdtId where
  part1 : Nat
  part2 : Nat
deriving DecidableEq, Repr

/-- The anchor-position table: a Python `dict` from `CrdtId` to a vertical
offset, as an insertion-ordered association list with unique keys. -/
abbrev AnchorPos := List (CrdtId × Int)

/-- Python `d[k] = v`: overwrite the value in place if the key is present,
otherwise append the new binding. -/
def dictInsert : AnchorPos → CrdtId → Int → AnchorPos
  | [], k, v => [(k, v)]
  | (k', v') :: rest, k, v =>
    if k' = k then (k, v) :: rest else (k', v') :: dictInsert rest k v

/-- Python `d[k]` / `k in d`: the value bound to `k`, if any. -/
def dictLookup : AnchorPos → CrdtId → Option Int
  | [], _ => none
  | (k', v') :: rest, k => if k' = k then some v' else dictLookup rest k

/-! ## Text data model

`rmscene.text.TextDocument.from_scene_item` (external library) reconstructs
an ordered paragraph sequence from a rich-text scene item; the embedding
carries that reconstructed document directly inside the `Text` item. -/

/-- A paragraph style (`rmscene.scene_items.ParagraphStyle`); `basic` stands
for any value that is not a key of the `LINE_HEIGHTS` table. -/
inductive ParagraphStyle where
  | basic
  | plain
  | heading
  | bold
  | bullet
  | bullet2
  | checkbox
  | checkboxChecked
deriving DecidableEq, Repr

/-- Python `p.style.value.name.lower()`. -/
def styleName : ParagraphStyle → String
  | .basic => "basic"
  | .plain => "plain"
  | .heading => "heading"
  | .bold => "bold"
  | .bullet => "bullet"
  | .bullet2 => "bullet2"
  | .checkbox => "checkbox"
  | .checkboxChecked => "checkbox_checked"

/-- One text-run fragment of a paragraph: its CRDT identifier set (`subp.i`
in `build_anchor_pos`) and its textual content (`str(subp)`). -/
structure TextRun where
  i : List CrdtId
  text : String
deriving DecidableEq, Repr

/-- One paragraph of a reconstructed text document. -/
structure Paragraph where
  start_id : CrdtId
  style : ParagraphStyle
  contents : List TextRun
deriving DecidableEq, Repr

/-- A rich-text scene item (`rmscene.scene_items.Text`) with the paragraph
sequence that `TextDocument.from_scene_item` reconstructs from it. -/
structure Text where
  pos_x : Int
  pos_y : Int
  paragraphs : List Paragraph
deriving DecidableEq, Repr

/-- Python `str(p)` for a paragraph: the concatenation of its runs' text. -/
def paraText (p : Paragraph) : String :=
  String.join (p.contents.map TextRun.text)

/-- Python `s.strip()`: drop leading and trailing whitespace. -/
def pyStrip (s : String) : String :=
  String.mk (((s.data.dropWhile Char.isWhitespace).reverse.dropWhile
    Char.isWhitespace).reverse)

/-! ## Constants of `exporters/json.py` -/

def SCREEN_WIDTH : Int := 1404
def SCREEN_HEIGHT : Int := 1872
def SCREEN_DPI : Int := 226

/-- `SCALE = 72.0 / SCREEN_DPI`. -/
def SCALE : Rat := 72 / 226

/-- `scale(screen_unit) = screen_unit * SCALE` (and `xx`/`yy` are the same
function). -/
def scale (screen_unit : Int) : Rat := screen_unit * SCALE

def TEXT_TOP_Y : Int := -88

/-- The `LINE_HEIGHTS` table, looked up with `LINE_HEIGHTS.get(style, 70)`:
any style that is not a key (modelled by `basic`) gives 70. -/
def lineHeight : ParagraphStyle → Int
  | .plain => 70
  | .bullet => 35
  | .bullet2 => 35
  | .bold => 70
  | .heading => 150
  | .checkbox => 35
  | .checkboxChecked => 35
  | .basic => 70

/-! ## `build_anchor_pos` -/

/-- The first special anchor id, `CrdtId(0, 281474976710654)`. -/
def specialAnchorA : CrdtId := ⟨0, 281474976710654⟩

/-- The second special anchor id, `CrdtId(0, 281474976710655)`. -/
def specialAnchorB : CrdtId := ⟨0, 281474976710655⟩

/-- The two pre-registered entries of the anchor table. -/
def specialAnchors : AnchorPos := [(specialAnchorA, 100), (specialAnchorB, 100)]

/-- `for k in subp.i: anchor_pos[k] = ypos` for one run. -/
def insertRunIds (m : AnchorPos) (ids : List CrdtId) (ypos : Int) : AnchorPos :=
  ids.foldl (fun m k => dictInsert m k ypos) m

/-- The body of one iteration of the paragraph loop of `build_anchor_pos`:
`anchor_pos[p.start_id] = ypos` followed by the run-id inserts. -/
def insertParagraph (m : AnchorPos) (p : Paragraph) (ypos : Int) : AnchorPos :=
  p.contents.foldl (fun m r => insertRunIds m r.i ypos)
    (dictInsert m p.start_id ypos)

/-- The paragraph loop of `build_anchor_pos`: record each paragraph's ids at
the current `ypos`, then advance `ypos` by the paragraph's line height. -/
def buildAnchorGo : List Paragraph → Int → AnchorPos → AnchorPos
  | [], _, m => m
  | p :: ps, ypos, m =>
    buildAnchorGo ps (ypos + lineHeight p.style) (insertParagraph m p ypos)

/-- `build_anchor_pos(text)`: the two special entries, plus one entry per
paragraph start id and per contained run id when a text root exists, with
`ypos` starting at `text.pos_y + TEXT_TOP_Y`. -/
def build_anchor_pos : Option Text → AnchorPos
  | none => specialAnchors
  | some t => buildAnchorGo t.paragraphs (t.pos_y + TEXT_TOP_Y) specialAnchors

/-! ## Drawing data model -/

/-- One point of a stroke (`rmscene.scene_items.Point`). -/
structure Point where
  x : Int
  y : Int
  speed : Int
  direction : Int
  width : Int
  pressure : Int
deriving DecidableEq, Repr

/-- One stroke (`rmscene.scene_items.Line`): tool kind, base color,
thickness scale and the point sequence. -/
structure Line where
  tool : Nat
  color : Nat
  thickness_scale : Int
  points : List Point
deriving DecidableEq, Repr

/-- The non-recursive attributes of a `rmscene.scene_items.Group`; the
`anchor_*` fields model the optional `LwwValue` wrappers, already
unwrapped to their `.value`. -/
structure GroupData where
  node_id : CrdtId
  label : String
  visible : Bool
  anchor_id : Option CrdtId
  anchor_type : Option Int
  anchor_threshold : Option Int
  anchor_origin_x : Option Int
deriving DecidableEq, Repr

/-- A child of a group: a nested group, a stroke, or a null child (Python
`None`, skipped by every traversal). -/
inductive SceneItem where
  | group (g : GroupData) (children : List SceneItem)
  | line (l : Line)
  | other
deriving Repr

/-- The parsed scene tree: a drawing root (a `Group`, given by its data and
children) and an optional text root. -/
structure SceneTree where
  root_data : GroupData
  root_children : List SceneItem
  root_text : Option Text

mutual
/-- Total number of raw points across every `Line` of an item. -/
def totalPoints : SceneItem → Nat
  | .group _ ch => totalPointsList ch
  | .line l => l.points.length
  | .other => 0
/-- Total number of raw points across a child list. -/
def totalPointsList : List SceneItem → Nat
  | [] => 0
  | c :: cs => totalPoints c + totalPointsList cs
end

/-! ## `get_anchor` -/

/-- `get_anchor(item, anchor_pos)`.  `none` models the `AssertionError`
raised by `assert item.anchor_origin_x is not None`; note it is raised
before any lookup in `anchor_pos`.  A missing anchor id is recovered:
only a warning is logged and the y offset is 0. -/
def get_anchor (item : GroupData) (anchor_pos : AnchorPos) : Option (Int × Int) :=
  match item.anchor_id with
  | none => some (0, 0)
  | some aid =>
    match item.anchor_origin_x with
    | none => none
    | some ax =>
      match dictLookup anchor_pos aid with
      | some ay => some (ax, ay)
      | none => some (ax, 0)

/-! ## `get_bounding_box` -/

/-- The default argument of `get_bounding_box`:
`(- SCREEN_WIDTH // 2, SCREEN_WIDTH // 2, 0, SCREEN_HEIGHT)`. -/
def bboxDefault : Int × Int × Int × Int :=
  (-(SCREEN_WIDTH / 2), SCREEN_WIDTH / 2, 0, SCREEN_HEIGHT)

/-- `min([x_min] + [p.x for p in points])`. -/
def foldMin (a : Int) (xs : List Int) : Int := xs.foldl min a

/-- `max([x_max] + [p.x for p in points])`. -/
def foldMax (a : Int) (xs : List Int) : Int := xs.foldl max a

mutual
/-- The recursive call `get_bounding_box(child, anchor_pos, (0, 0, 0, 0))`
made by the child loop for a nested group child (the `line`/`other` cases
are never consulted: the loop handles those children inline). -/
def bboxItem : SceneItem → AnchorPos → Option (Int × Int × Int × Int)
  | .group _ ch, anchor_pos => bboxChildren ch anchor_pos (0, 0, 0, 0)
  | .line _, _ => some (0, 0, 0, 0)
  | .other, _ => some (0, 0, 0, 0)

/-- The child loop of `get_bounding_box`: group children recurse with the
all-zero default and are combined translated by their anchor offset; line
children extend the extremes over their raw points; null children are
skipped.  `none` models a propagating `AssertionError` from `get_anchor`. -/
def bboxChildren : List SceneItem → AnchorPos → (Int × Int × Int × Int) →
    Option (Int × Int × Int × Int)
  | [], _, acc => some acc
  | c :: cs, anchor_pos, (x_min, x_max, y_min, y_max) =>
    match c with
    | .group g _ =>
      match get_anchor g anchor_pos with
      | none => none
      | some (anchor_x, anchor_y) =>
        match bboxItem c anchor_pos with
        | none => none
        | some (x_min_t, x_max_t, y_min_t, y_max_t) =>
          bboxChildren cs anchor_pos
            (min x_min (x_min_t + anchor_x), max x_max (x_max_t + anchor_x),
             min y_min (y_min_t + anchor_y), max y_max (y_max_t + anchor_y))
    | .line l =>
      bboxChildren cs anchor_pos
        (foldMin x_min (l.points.map Point.x), foldMax x_max (l.points.map Point.x),
         foldMin y_min (l.points.map Point.y), foldMax y_max (l.points.map Point.y))
    | .other => bboxChildren cs anchor_pos (x_min, x_max, y_min, y_max)
end

/-- `get_bounding_box(item, anchor_pos, default)`; the group is given by its
data and children. -/
def get_bounding_box (_item : GroupData) (children : List SceneItem)
    (anchor_pos : AnchorPos) (default : Int × Int × Int × Int) :
    Option (Int × Int × Int × Int) :=
  bboxChildren children anchor_pos default

/-! ## The pen styling model

Modelled from the spec: `rmc.exporters.writing_tools.Pen` is code of this
repository that is not under the examined source; per the spec it exposes a
positive `segment_length` and per-segment color/width/opacity functions of
the point dynamics and the previous segment width.  Every consumer below is
parametrised by the `Pen.create` function. -/

/-- Modelled from the spec: a pen-model instance (see the section comment). -/
structure Pen where
  segment_length : Nat
  get_segment_color : Int → Int → Int → Int → Int → Nat
  get_segment_width : Int → Int → Int → Int → Int → Int
  get_segment_opacity : Int → Int → Int → Int → Int → Int

/-- Modelled from the spec: the `Pen.create(tool, color, thickness_scale)`
factory, kept abstract. -/
abbrev PenCreate := Nat → Nat → Int → Pen

/-! ## `draw_stroke` -/

/-- One entry of the flat `points` list produced by `draw_stroke`. -/
structure PointRecord where
  x : Rat
  y : Rat
  xorg : Int
  yorg : Int
  anchorx : Int
  anchory : Int
  color : Nat
  width : Int
  opacity : Int
deriving DecidableEq, Repr

/-- The point loop of `draw_stroke`: state is the 0-based index and
`last_segment_width` (which Python updates to the current `segment_width`
after every iteration, so it always holds the width of the latest computed
segment).  A record is appended only when `point_id % pen.segment_length
== 0`. -/
def drawStrokeGo (pen : Pen) (anchor_x anchor_y : Int) (flatten : Bool) :
    List Point → Nat → Int → List PointRecord
  | [], _, _ => []
  | p :: ps, point_id, last_segment_width =>
    let xpos := if flatten then p.x + anchor_x else p.x
    let ypos := if flatten then p.y + anchor_y else p.y
    if point_id % pen.segment_length = 0 then
      let segment_color := pen.get_segment_color p.speed p.direction p.width
        p.pressure last_segment_width
      let segment_width := pen.get_segment_width p.speed p.direction p.width
        p.pressure last_segment_width
      let segment_opacity := pen.get_segment_opacity p.speed p.direction p.width
        p.pressure last_segment_width
      { x := scale xpos, y := scale ypos, xorg := p.x, yorg := p.y,
        anchorx := anchor_x, anchory := anchor_y, color := segment_color,
        width := segment_width, opacity := segment_opacity } ::
        drawStrokeGo pen anchor_x anchor_y flatten ps (point_id + 1) segment_width
    else
      drawStrokeGo pen anchor_x anchor_y flatten ps (point_id + 1) last_segment_width

/-- `draw_stroke(item, output, anchor_x, anchor_y, flatten)`: creates the pen
from the stroke's static attributes and runs the point loop with
`last_segment_width = segment_width = 0`.  Writes nothing to the output. -/
def draw_stroke (pc : PenCreate) (item : Line) (anchor_x anchor_y : Int)
    (flatten : Bool) : List PointRecord :=
  let pen := pc item.tool item.color item.thickness_scale
  drawStrokeGo pen anchor_x anchor_y flatten item.points 0 0

/-! ## `draw_group` (flattened walk)

The JSON exporter only ever calls `draw_group(tree.root, output, anchor_pos,
True)`; with `flatten=True` every recursive call also passes `True`, so the
embedding models exactly that path: the result is the flat list obtained by
`items.extend(...)` in child order. -/

mutual
/-- The body of one iteration of the `flatten=True` child loop of
`draw_group`: a group child is flattened by the recursive
`draw_group(child, output, anchor_pos, True)` (its own anchor replaces the
enclosing one), a line child contributes
`draw_stroke(child, output, anchor_x, anchor_y, True)` with the anchor of
the *enclosing* group, and a null child contributes nothing. -/
def drawItem (pc : PenCreate) : SceneItem → AnchorPos → Int → Int →
    Option (List PointRecord)
  | .group g ch, anchor_pos, _, _ =>
    match get_anchor g anchor_pos with
    | none => none
    | some (anchor_x, anchor_y) => drawChildren pc ch anchor_pos anchor_x anchor_y
  | .line l, _, anchor_x, anchor_y => some (draw_stroke pc l anchor_x anchor_y true)
  | .other, _, _, _ => some []

/-- The `flatten=True` child loop of `draw_group`: `items.extend(...)` in
child order. -/
def drawChildren (pc : PenCreate) : List SceneItem → AnchorPos → Int → Int →
    Option (List PointRecord)
  | [], _, _, _ => some []
  | c :: cs, anchor_pos, anchor_x, anchor_y =>
    match drawItem pc c anchor_pos anchor_x anchor_y with
    | none => none
    | some sub =>
      match drawChildren pc cs anchor_pos anchor_x anchor_y with
      | none => none
      | some rest => some (sub ++ rest)
end

/-- `draw_group(item, output, anchor_pos, flatten=True)` for the group given
by its data and children. -/
def draw_group (pc : PenCreate) (item : GroupData) (children : List SceneItem)
    (anchor_pos : AnchorPos) : Option (List PointRecord) :=
  match get_anchor item anchor_pos with
  | none => none
  | some (anchor_x, anchor_y) =>
    drawChildren pc children anchor_pos anchor_x anchor_y

/-! ## The cumulative-offset walk described by the spec (for claim C4)

The spec describes the flattened walk as translating each stroke's points by
the cumulative anchor offset summed over every ancestor group on the path
from the root to the stroke, as `get_bounding_box` does when combining a
nested child's box into its parent's extent.  The following pair of
definitions follows those words; claim C4 compares it with `draw_group`. -/

mutual
/-- One item of the spec-described cumulative walk: the second and third
arguments are the cumulative anchor offset of every ancestor group; a group
child adds its own anchor to it before visiting its children, a line child
is translated by the full cumulative offset. -/
def drawItemCumulative (pc : PenCreate) : SceneItem → AnchorPos → Int → Int →
    Option (List PointRecord)
  | .group g ch, anchor_pos, cumx, cumy =>
    match get_anchor g anchor_pos with
    | none => none
    | some (anchor_x, anchor_y) =>
      drawChildrenCumulative pc ch anchor_pos (cumx + anchor_x) (cumy + anchor_y)
  | .line l, _, cumx, cumy => some (draw_stroke pc l cumx cumy true)
  | .other, _, _, _ => some []

/-- Child loop of the spec-described cumulative walk. -/
def drawChildrenCumulative (pc : PenCreate) : List SceneItem → AnchorPos →
    Int → Int → Option (List PointRecord)
  | [], _, _, _ => some []
  | c :: cs, anchor_pos, cumx, cumy =>
    match drawItemCumulative pc c anchor_pos cumx cumy with
    | none => none
    | some sub =>
      match drawChildrenCumulative pc cs anchor_pos cumx cumy with
      | none => none
      | some rest => some (sub ++ rest)
end

/-- Spec-described flattened walk for the root group: its own anchor is
added to the (initially zero) cumulative offset before visiting children. -/
def drawGroupCumulative (pc : PenCreate) (item : GroupData)
    (children : List SceneItem) (anchor_pos : AnchorPos) (accx accy : Int) :
    Option (List PointRecord) :=
  match get_anchor item anchor_pos with
  | none => none
  | some (anchor_x, anchor_y) =>
    drawChildrenCumulative pc children anchor_pos (accx + anchor_x) (accy + anchor_y)

/-! ## `draw_text` -/

/-- One entry of the `text` list produced by `draw_text` (`cls` is the
Python key `"class"`). -/
structure TextRec where
  x : Rat
  y : Rat
  xorg : Int
  yorg : Int
  text : String
  cls : String
deriving DecidableEq, Repr

/-- The raw SVG markup fragment written by `draw_text` for one emitted line;
`fmt` renders a scaled coordinate the way Python string interpolation
renders the float. -/
def svgTextFragment (fmt : Rat → String) (x y : Rat) (cls content : String) :
    String :=
  "\t\t\t<text x=\"" ++ fmt x ++ "\" y=\"" ++ fmt y ++ "\" class=\"" ++ cls
    ++ "\">" ++ content ++ "</text>\n"

/-- The paragraph loop of `draw_text`: `y_offset` is advanced by the line
height *before* the line's position is computed; a line is emitted (both as
an SVG fragment into the output stream and as a record) only when `str(p)`
is non-empty, but every paragraph advances `y_offset`. -/
def drawTextGo (fmt : Rat → String) (pos_x pos_y : Int) :
    List Paragraph → Int → List String × List TextRec
  | [], _ => ([], [])
  | p :: ps, y_offset =>
    let y_offset := y_offset + lineHeight p.style
    let xpos := pos_x
    let ypos := pos_y + y_offset
    let cls := styleName p.style
    let rest := drawTextGo fmt pos_x pos_y ps y_offset
    if (paraText p).isEmpty then rest
    else
      (svgTextFragment fmt (scale xpos) (scale ypos) cls (pyStrip (paraText p))
         :: rest.1,
       { x := scale xpos, y := scale ypos, xorg := xpos, yorg := ypos,
         text := pyStrip (paraText p), cls := cls } :: rest.2)

/-- `draw_text(text, output)`: returns the pair (strings written to the
output stream, in order; the returned `lines` list). -/
def draw_text (fmt : Rat → String) (text : Text) : List String × List TextRec :=
  drawTextGo fmt text.pos_x text.pos_y text.paragraphs TEXT_TOP_Y

/-! ## `tree_to_json` -/

/-- The `page` object: scaled width/height and scaled min corner. -/
structure PageRec where
  width : Rat
  height : Rat
  x : Rat
  y : Rat
deriving DecidableEq, Repr

/-- The `pageOrg` object: the raw bounding-box values (the fields named
`width`/`height` hold `x_max`/`y_max`, as in the source). -/
structure PageOrgRec where
  width : Int
  height : Int
  x : Int
  y : Int
deriving DecidableEq, Repr

/-- The JSON object assembled by `tree_to_json`. -/
structure JsonResult where
  page : PageRec
  pageOrg : PageOrgRec
  text : List TextRec
  points : List PointRecord

/-- `tree_to_json(tree, output)`: builds the anchor table, computes the
bounding box, renders text (whose SVG fragments go straight into the output
stream), renders the flattened strokes, and finally writes the dumped JSON
object.  `dumps` stands for `json.dumps(r, indent=4)`.  The result is the
list of strings written to the output stream; `none` models a propagating
`AssertionError`. -/
def tree_to_json (pc : PenCreate) (dumps : JsonResult → String)
    (fmt : Rat → String) (tree : SceneTree) : Option (List String) :=
  let anchor_pos := build_anchor_pos tree.root_text
  match get_bounding_box tree.root_data tree.root_children anchor_pos bboxDefault with
  | none => none
  | some (x_min, x_max, y_min, y_max) =>
    let width_pt := scale (x_max - x_min + 1)
    let height_pt := scale (y_max - y_min + 1)
    let page : PageRec := ⟨width_pt, height_pt, scale x_min, scale y_min⟩
    let textOut := match tree.root_text with
      | some t => draw_text fmt t
      | none => ([], [])
    match draw_group pc tree.root_data tree.root_children anchor_pos with
    | none => none
    | some points =>
      let r : JsonResult := ⟨page, ⟨x_max, y_max, x_min, y_min⟩, textOut.2, points⟩
      some (textOut.1 ++ [dumps r])

/-! ## `cli.py`: `lookahead`, `json_blocks`, `tree_structure`, `json_tree` -/

/-- `lookahead(iterable)`: each element paired with `True` when more values
follow, `False` on the last one. -/
def lookahead {α : Type _} : List α → List (α × Bool)
  | [] => []
  | [x] => [(x, false)]
  | x :: y :: rest => (x, true) :: lookahead (y :: rest)

/-- The element loop of `json_blocks`: one printed line per block's generic
reflection (`reflect` stands for the `json.dumps(el.__dict__, ...)` call),
with a `","` line between consecutive elements. -/
def blocksBody {α : Type _} (reflect : α → String) : List (α × Bool) → List String
  | [] => []
  | (el, notlast) :: rest =>
    (reflect el :: if notlast then [","] else []) ++ blocksBody reflect rest

/-- `json_blocks(f, fout, data)`: the input is the decoded block stream (the
external `read_blocks`).  The `depth` variable is computed from `data` but
never consulted afterwards, exactly as in the source. -/
def json_blocks {α : Type _} (reflect : α → String) (blocks : List α)
    (data : Bool) : List String :=
  let depth : Option Nat := if data then none else some 1
  ("[" :: blocksBody reflect (lookahead blocks)) ++ ["]"]

/-- The reduced structural skeleton produced by `tree_structure`: a nested
triple for a `Group`, or the item returned unchanged (a `Line`, a text root,
or Python `None`). -/
inductive TreeStruct where
  | node (node_id : CrdtId)
      (meta : String × Bool × (Option CrdtId × Option Int × Option Int × Option Int))
      (children : List TreeStruct)
  | leaf (l : Line)
  | leafText (t : Text)
  | leafNone

mutual
/-- `tree_structure(item)`. -/
def tree_structure : SceneItem → TreeStruct
  | .group g ch =>
    .node g.node_id
      (g.label, g.visible,
        (g.anchor_id, g.anchor_type, g.anchor_threshold, g.anchor_origin_x))
      (treeStructureChildren ch)
  | .line l => .leaf l
  | .other => .leafNone

/-- `[tree_structure(child) for child in item.children.values() if child]`:
null children are filtered out. -/
def treeStructureChildren : List SceneItem → List TreeStruct
  | [] => []
  | .other :: cs => treeStructureChildren cs
  | c :: cs => tree_structure c :: treeStructureChildren cs
end

/-- `json_tree(f, fout, data)` on a decoded tree: both the drawing root's and
the text root's structures are computed, but (as in the source, where the
second `json.dumps` call is applied to `tree_root` again) both serialized
array elements come from `tree_root`.  `serialize` stands for
`json.dumps(..., default=..., indent=4)`; the result is the list of printed
lines. -/
def json_tree (serialize : TreeStruct → String) (root_data : GroupData)
    (root_children : List SceneItem) (root_text : Option Text) : List String :=
  let tree_root := tree_structure (SceneItem.group root_data root_children)
  let tree_root_text := match root_text with
    | some t => TreeStruct.leafText t
    | none => TreeStruct.leafNone
  let tree_root_json := serialize tree_root
  let tree_root_text_json := serialize tree_root
  ["[", tree_root_json, ",", tree_root_text_json, "]"]

/-! ## Helper functions used only in theorem statements -/

/-- The CRDT identifiers a paragraph writes into the anchor table: its start
id followed by every contained run id. -/
def writtenKeys (p : Paragraph) : List CrdtId :=
  p.start_id :: (p.contents.map TextRun.i).flatten

/-- All anchor-table keys written by a paragraph list. -/
def writtenKeysList (ps : List Paragraph) : List CrdtId :=
  (ps.map writtenKeys).flatten

/-- Sum of the line heights of a paragraph list. -/
def sumLineHeights (ps : List Paragraph) : Int :=
  (ps.map (fun p => lineHeight p.style)).sum

/-- Number of paragraphs with non-empty (untrimmed) concatenated text: the
ones `draw_text` emits. -/
def countEmitted (ps : List Paragraph) : Nat :=
  (ps.filter (fun p => !(paraText p).isEmpty)).length

/-! ## Concrete instances used by witnesses and counterexamples -/

/-- A trivial float renderer standing in for Python float interpolation. -/
def fmt0 : Rat → String := fun _ => ""

/-- A trivial `json.dumps` stand-in for the assembled JSON object. -/
def dumps0 : JsonResult → String := fun _ => ""

/-- A trivial `json.dumps` stand-in for tree structures. -/
def serialize0 : TreeStruct → String := fun _ => ""

/-- A pen model whose segment length is 1 (a record per point). -/
def pen1 : Pen := ⟨1, fun _ _ _ _ _ => 0, fun _ _ _ _ _ => 0, fun _ _ _ _ _ => 0⟩

/-- A pen-construction function always returning `pen1`. -/
def pc1 : PenCreate := fun _ _ _ => pen1

/-- A pen model whose segment length is 2 (one record per two points). -/
def pen2 : Pen := ⟨2, fun _ _ _ _ _ => 0, fun _ _ _ _ _ => 0, fun _ _ _ _ _ => 0⟩

/-- A pen-construction function always returning `pen2`. -/
def pc2 : PenCreate := fun _ _ _ => pen2

/-- An anchor-free drawing-root group. -/
def gd0 : GroupData := ⟨⟨9, 0⟩, "", true, none, none, none, none⟩

/-- A text root whose single paragraph's start id collides with the first
special anchor id; its paragraph entry overwrites the pre-registered one. -/
def textColliding : Text := ⟨0, 0, [⟨specialAnchorA, .plain, []⟩]⟩

/-- A text root with collision-free identifiers. -/
def textFresh : Text := ⟨10, 20, [⟨⟨1, 1⟩, .plain, [⟨[⟨1, 2⟩], "hi"⟩]⟩]⟩

/-- A two-paragraph text root with collision-free ids used as witness. -/
def textTwo : Text :=
  ⟨10, 20, [⟨⟨1, 1⟩, .plain, [⟨[⟨1, 2⟩], "a"⟩]⟩,
            ⟨⟨1, 3⟩, .heading, [⟨[], "b"⟩]⟩]⟩

/-- A paragraph whose concatenated text is one space: non-empty before
trimming, empty after trimming. -/
def paraWs : Paragraph := ⟨⟨1, 1⟩, .plain, [⟨[], " "⟩]⟩

/-- A text root consisting only of that whitespace paragraph. -/
def textWs : Text := ⟨0, 0, [paraWs]⟩

/-- A scene tree with the whitespace text root and no strokes. -/
def treeWs : SceneTree := ⟨gd0, [], some textWs⟩

/-- A text root with one paragraph that trims to `"ab"`. -/
def textOne : Text := ⟨3, 4, [⟨⟨1, 1⟩, .heading, [⟨[], " ab "⟩]⟩]⟩

/-- A scene tree with that text root and no strokes. -/
def treeOne : SceneTree := ⟨gd0, [], some textOne⟩

/-! ## Helper predicates for the anchor `assert` and group nesting -/

mutual
/-- Every group in the item satisfies the `get_anchor` assertion: an anchor
id implies an anchor origin-x. -/
def okAnchors : SceneItem → Bool
  | .group g ch => (g.anchor_id.isNone || g.anchor_origin_x.isSome)
      && okAnchorsList ch
  | .line _ => true
  | .other => true
/-- `okAnchors` over a child list. -/
def okAnchorsList : List SceneItem → Bool
  | [] => true
  | c :: cs => okAnchors c && okAnchorsList cs
end

/-- No child of this list is a nested group. -/
def noChildGroups : List SceneItem → Bool
  | [] => true
  | .group _ _ :: _ => false
  | _ :: cs => noChildGroups cs

/-- Every group child of this list has no nested group of its own: the
group nesting below it is at most one level deep. -/
def shallowChildren : List SceneItem → Bool
  | [] => true
  | .group _ ch :: cs => noChildGroups ch && shallowChildren cs
  | _ :: cs => shallowChildren cs

/-- A one-point stroke at `(2, 3)`. -/
def lineOne : Line := ⟨0, 0, 0, [⟨2, 3, 0, 0, 0, 0⟩]⟩

/-- A two-point stroke. -/
def lineTwo : Line := ⟨0, 0, 0, [⟨0, 0, 0, 0, 0, 0⟩, ⟨1, 1, 0, 0, 0, 0⟩]⟩

/-- An anchored group: anchor id `(1, 1)`, anchor origin-x 5. -/
def gAnchored : GroupData := ⟨⟨2, 1⟩, "", true, some ⟨1, 1⟩, none, none, some 5⟩

/-- An anchor-free inner group. -/
def gPlain : GroupData := ⟨⟨2, 2⟩, "", true, none, none, none, none⟩

/-- An anchor table resolving id `(1, 1)` to the vertical offset 100. -/
def apOne : AnchorPos := [(⟨1, 1⟩, 100)]

/-- Depth-two nesting: the anchored group wraps a plain group wrapping a
stroke.  `draw_group` translates the stroke by the anchor of `gPlain`
(zero) while the bounding-box walk sums the anchors of both groups. -/
def chDeep : List SceneItem :=
  [SceneItem.group gAnchored [SceneItem.group gPlain [SceneItem.line lineOne]]]

/-- Depth-one nesting: one anchored group holding a stroke, plus a
root-level stroke. -/
def chShallow : List SceneItem :=
  [SceneItem.group gAnchored [SceneItem.line lineOne], SceneItem.line lineTwo]

/-- A group violating the `get_anchor` assertion: anchor id set, origin-x
absent. -/
def gBad : GroupData := ⟨⟨3, 1⟩, "", true, some ⟨1, 1⟩, none, none, none⟩

/-- A group whose anchor id resolves to nothing (missing anchor). -/
def gMissing : GroupData := ⟨⟨3, 2⟩, "", true, some ⟨7, 7⟩, none, none, some 4⟩

/-- A tree containing the assertion-violating group. -/
def treeBad : SceneTree := ⟨gd0, [SceneItem.group gBad []], none⟩

/-- A tree containing a group with a missing (unresolvable) anchor. -/
def treeMissing : SceneTree :=
  ⟨gd0, [SceneItem.group gMissing [SceneItem.line lineOne]], none⟩

/-! ## Lemmas on the anchor-position table -/

theorem dictLookup_dictInsert (m : AnchorPos) (k key : CrdtId) (v : Int) :
    dictLookup (dictInsert m k v) key =
      if k = key then some v else dictLookup m key := by
  induction m with
  | nil => simp [dictInsert, dictLookup]
  | cons kv rest ih =>
    obtain ⟨k', v'⟩ := kv
    by_cases h : k' = k
    · subst h
      simp only [dictInsert, if_pos rfl, dictLookup]
      by_cases h2 : k' = key
      · simp [h2]
      · simp [h2]
    · simp only [dictInsert, if_neg h, dictLookup, ih]
      by_cases h2 : k' = key
      · subst h2
        have hk : ¬k = k' := fun h' => h h'.symm
        simp [hk]
      · simp [h2]

theorem dictLookup_insertRunIds (ids : List CrdtId) (m : AnchorPos) (v : Int)
    (key : CrdtId) :
    dictLookup (insertRunIds m ids v) key =
      if key ∈ ids then some v else dictLookup m key := by
  induction ids generalizing m with
  | nil => simp [insertRunIds]
  | cons a ids ih =>
    show dictLookup (insertRunIds (dictInsert m a v) ids v) key = _
    rw [ih, dictLookup_dictInsert]
    by_cases h1 : key ∈ ids
    · simp [h1]
    · by_cases h2 : a = key
      · subst h2
        simp [h1]
      · have h2' : ¬key = a := fun h' => h2 h'.symm
        simp [h1, h2, h2', List.mem_cons]

theorem dictLookup_insertParagraph (m : AnchorPos) (p : Paragraph) (ypos : Int)
    (key : CrdtId) :
    dictLookup (insertParagraph m p ypos) key =
      if key ∈ writtenKeys p then some ypos else dictLookup m key := by
  unfold insertParagraph writtenKeys
  have main : ∀ (rs : List TextRun) (m0 : AnchorPos),
      dictLookup (rs.foldl (fun m r => insertRunIds m r.i ypos) m0) key =
        if key ∈ (rs.map TextRun.i).flatten then some ypos else dictLookup m0 key := by
    intro rs
    induction rs with
    | nil => simp
    | cons r rs ih =>
      intro m0
      show dictLookup (rs.foldl _ (insertRunIds m0 r.i ypos)) key = _
      rw [ih, dictLookup_insertRunIds]
      by_cases h1 : key ∈ (rs.map TextRun.i).flatten
      · simp [h1]
      · by_cases h2 : key ∈ r.i
        · simp [h1, h2]
        · simp [h1, h2]
  rw [main, dictLookup_dictInsert]
  by_cases h1 : key ∈ (p.contents.map TextRun.i).flatten
  · simp [h1]
  · by_cases h2 : p.start_id = key
    · subst h2
      simp [h1]
    · have h2' : ¬key = p.start_id := fun h' => h2 h'.symm
      simp [h1, h2, h2', List.mem_cons]

theorem buildAnchorGo_lookup_fresh (ps : List Paragraph) (ypos : Int)
    (m : AnchorPos) (key : CrdtId) (h : key ∉ writtenKeysList ps) :
    dictLookup (buildAnchorGo ps ypos m) key = dictLookup m key := by
  induction ps generalizing ypos m with
  | nil => rfl
  | cons p ps ih =>
    have hnp : key ∉ writtenKeys p := by
      intro hmem
      exact h (by simp [writtenKeysList, List.mem_flatten]; exact Or.inl hmem)
    have hnps : key ∉ writtenKeysList ps := by
      intro hmem
      apply h
      simp only [writtenKeysList, List.mem_flatten] at hmem ⊢
      simp only [List.map_cons, List.mem_cons]
      obtain ⟨s, hs, hks⟩ := hmem
      exact ⟨s, Or.inr hs, hks⟩
    show dictLookup (buildAnchorGo ps (ypos + lineHeight p.style)
      (insertParagraph m p ypos)) key = _
    rw [ih _ _ hnps, dictLookup_insertParagraph, if_neg hnp]

theorem buildAnchorGo_lookup_at (ps : List Paragraph) (k : Nat)
    (hk : k < ps.length) (ypos : Int) (m : AnchorPos)
    (hfresh : (ps.get ⟨k, hk⟩).start_id ∉ writtenKeysList (ps.drop (k + 1))) :
    dictLookup (buildAnchorGo ps ypos m) (ps.get ⟨k, hk⟩).start_id =
      some (ypos + sumLineHeights (ps.take k)) := by
  induction ps generalizing k ypos m with
  | nil => exact absurd hk (by simp)
  | cons p ps ih =>
    cases k with
    | zero =>
      simp only [List.get] at hfresh ⊢
      show dictLookup (buildAnchorGo ps (ypos + lineHeight p.style)
        (insertParagraph m p ypos)) p.start_id = _
      rw [buildAnchorGo_lookup_fresh ps _ _ _ (by simpa using hfresh),
        dictLookup_insertParagraph,
        if_pos (by simp [writtenKeys])]
      simp [sumLineHeights]
    | succ k =>
      have hk' : k < ps.length := by simpa using hk
      simp only [List.get] at hfresh ⊢
      show dictLookup (buildAnchorGo ps (ypos + lineHeight p.style)
        (insertParagraph m p ypos)) _ = _
      rw [ih k hk' _ _ (by simpa using hfresh)]
      congr 1
      simp [sumLineHeights]
      ring

end Rmc

namespace Rmc

/-! ## Claim C5 -/

/-- C5: converting with target format `blocks` and with target format
`blocks-data` produce identical output: the depth parameter computed from
the data flag is never consulted, so both modes emit the same full
reflection of every decoded block. -/
theorem C5_blocks_modes_identical :
    ∀ (α : Type) (reflect : α → String) (blocks : List α),
      json_blocks reflect blocks true = json_blocks reflect blocks false :=
  fun _ _ _ => rfl

/-! ## Claim C6 -/

/-- C6: the experimental tree dump writes a five-line stream (bracket, first
element, comma, second element, bracket) in which the second serialized
array element is the drawing root's reduced structure again — produced from
the same intermediate value as the first — for every text root, so the two
array elements are always identical. -/
theorem C6_tree_dump_duplicate :
    ∀ (serialize : TreeStruct → String) (gd : GroupData) (ch : List SceneItem)
      (rt : Option Text),
      json_tree serialize gd ch rt =
        ["[", serialize (tree_structure (SceneItem.group gd ch)), ",",
         serialize (tree_structure (SceneItem.group gd ch)), "]"] ∧
      (json_tree serialize gd ch rt)[1]? = (json_tree serialize gd ch rt)[3]? :=
  fun _ _ _ _ => ⟨rfl, rfl⟩

/-! ## Claim C7 -/

/-- C7 counterexample: for this document the anchor table does *not* contain
`specialAnchorA ↦ 100`: the colliding paragraph start id overwrote the
fixed entry with its own running offset `0 + (-88) = -88`. -/
theorem C7_counterexample :
    dictLookup (build_anchor_pos (some textColliding)) specialAnchorA =
      some (-88) ∧ (-88 : Int) ≠ 100 := by
  exact ⟨by decide, by decide⟩

/-- C7 (amended): the two fixed entries map to 100 for every document none
of whose paragraph start ids or run ids equals the special id in question,
and for a document with no text root the table is exactly the two fixed
entries. -/
theorem C7_fixed_entries :
    (∀ t : Text, specialAnchorA ∉ writtenKeysList t.paragraphs →
      dictLookup (build_anchor_pos (some t)) specialAnchorA = some 100) ∧
    (∀ t : Text, specialAnchorB ∉ writtenKeysList t.paragraphs →
      dictLookup (build_anchor_pos (some t)) specialAnchorB = some 100) ∧
    build_anchor_pos none = [(specialAnchorA, 100), (specialAnchorB, 100)] := by
  refine ⟨fun t h => ?_, fun t h => ?_, rfl⟩
  · show dictLookup (buildAnchorGo t.paragraphs (t.pos_y + TEXT_TOP_Y)
      specialAnchors) specialAnchorA = some 100
    rw [buildAnchorGo_lookup_fresh _ _ _ _ h]
    decide
  · show dictLookup (buildAnchorGo t.paragraphs (t.pos_y + TEXT_TOP_Y)
      specialAnchors) specialAnchorB = some 100
    rw [buildAnchorGo_lookup_fresh _ _ _ _ h]
    decide

/-- C7 witness: the amended theorem evaluated on a concrete document. -/
theorem C7_witness :
    dictLookup (build_anchor_pos (some textFresh)) specialAnchorA = some 100 ∧
    dictLookup (build_anchor_pos (some textFresh)) specialAnchorB = some 100 :=
  ⟨C7_fixed_entries.1 textFresh (by decide),
   C7_fixed_entries.2.1 textFresh (by decide)⟩

end Rmc

namespace Rmc

/-! ## Lemmas on `draw_text` -/

theorem sumLineHeights_take_succ (ps : List Paragraph) (k : Nat)
    (hk : k < ps.length) :
    sumLineHeights (ps.take (k + 1)) =
      sumLineHeights (ps.take k) + lineHeight (ps.get ⟨k, hk⟩).style := by
  induction ps generalizing k with
  | nil => exact absurd hk (by simp)
  | cons p ps ih =>
    cases k with
    | zero => simp [sumLineHeights]
    | succ k =>
      have hk' : k < ps.length := by simpa using hk
      simp only [List.take_succ_cons, List.get]
      rw [show sumLineHeights (p :: ps.take (k + 1)) =
            lineHeight p.style + sumLineHeights (ps.take (k + 1)) by
          simp [sumLineHeights],
        show sumLineHeights (p :: ps.take k) =
            lineHeight p.style + sumLineHeights (ps.take k) by
          simp [sumLineHeights],
        ih k hk']
      ring

theorem drawTextGo_writes_length (fmt : Rat → String) (px py : Int)
    (ps : List Paragraph) (y0 : Int) :
    (drawTextGo fmt px py ps y0).1.length =
      (ps.filter (fun p => !(paraText p).isEmpty)).length := by
  induction ps generalizing y0 with
  | nil => rfl
  | cons p ps ih =>
    by_cases h : (paraText p).isEmpty
    · simp [drawTextGo, h, ih]
    · simp only [Bool.not_eq_true] at h
      simp [drawTextGo, h, ih]

theorem drawTextGo_get_emitted (fmt : Rat → String) (px py : Int)
    (ps : List Paragraph) (k : Nat) (hk : k < ps.length) (y0 : Int)
    (hne : (paraText (ps.get ⟨k, hk⟩)).isEmpty = false) :
    (drawTextGo fmt px py ps y0).1[countEmitted (ps.take k)]? =
        some (svgTextFragment fmt (scale px)
          (scale (py + y0 + sumLineHeights (ps.take (k + 1))))
          (styleName (ps.get ⟨k, hk⟩).style)
          (pyStrip (paraText (ps.get ⟨k, hk⟩)))) ∧
    (drawTextGo fmt px py ps y0).2[countEmitted (ps.take k)]? =
        some { x := scale px,
               y := scale (py + y0 + sumLineHeights (ps.take (k + 1))),
               xorg := px, yorg := py + y0 + sumLineHeights (ps.take (k + 1)),
               text := pyStrip (paraText (ps.get ⟨k, hk⟩)),
               cls := styleName (ps.get ⟨k, hk⟩).style } := by
  induction ps generalizing k y0 with
  | nil => exact absurd hk (by simp)
  | cons p ps ih =>
    cases k with
    | zero =>
      have hp : (paraText p).isEmpty = false := hne
      have harith : py + y0 + sumLineHeights (List.take (0 + 1) (p :: ps)) =
          py + (y0 + lineHeight p.style) := by
        simp [sumLineHeights]
        ring
      rw [harith]
      simp only [drawTextGo, hp, Bool.false_eq_true, if_false, List.take_zero,
        countEmitted, List.filter_nil, List.length_nil, List.getElem?_cons_zero]
      exact ⟨rfl, rfl⟩
    | succ k =>
      have hk' : k < ps.length := by simpa using hk
      have hne' : (paraText (ps.get ⟨k, hk'⟩)).isEmpty = false := hne
      have ihk := ih k hk' (y0 + lineHeight p.style) hne'
      have harith : py + (y0 + lineHeight p.style) +
            sumLineHeights (List.take (k + 1) ps) =
          py + y0 + sumLineHeights (List.take (k + 1 + 1) (p :: ps)) := by
        simp only [List.take_succ_cons]
        rw [show sumLineHeights (p :: ps.take (k + 1)) =
              lineHeight p.style + sumLineHeights (ps.take (k + 1)) by
            simp [sumLineHeights]]
        ring
      by_cases h : (paraText p).isEmpty
      · have hcount : countEmitted (List.take (k + 1) (p :: ps)) =
            countEmitted (List.take k ps) := by
          simp [countEmitted, List.take_succ_cons, List.filter_cons, h]
        rw [hcount, ← harith]
        simp only [drawTextGo, h, if_true]
        exact ihk
      · simp only [Bool.not_eq_true] at h
        have hcount : countEmitted (List.take (k + 1) (p :: ps)) =
            countEmitted (List.take k ps) + 1 := by
          simp [countEmitted, List.take_succ_cons, List.filter_cons, h]
        rw [hcount, ← harith]
        simp only [drawTextGo, h, Bool.false_eq_true, if_false,
          List.getElem?_cons_succ]
        exact ihk

end Rmc

namespace Rmc

/-! ## Claim C2 -/

/-- C2: `build_anchor_pos` records each paragraph's start id at the running
offset (starting at the text item's y plus `TEXT_TOP_Y = -88`) *before*
adding that paragraph's line height, while `draw_text` positions each
paragraph at the running offset *after* adding its line height; so for every
paragraph the rendered unscaled `yorg` equals the anchor-table offset
recorded for that paragraph plus that paragraph's line height (the freshness
hypothesis rules out later paragraphs overwriting the dictionary entry; the
non-emptiness hypothesis makes the paragraph's record exist). -/
theorem C2_anchor_vs_text_offset (fmt : Rat → String) (t : Text) (k : Nat)
    (hk : k < t.paragraphs.length)
    (hfresh : (t.paragraphs.get ⟨k, hk⟩).start_id ∉
      writtenKeysList (t.paragraphs.drop (k + 1)))
    (hne : (paraText (t.paragraphs.get ⟨k, hk⟩)).isEmpty = false) :
    dictLookup (build_anchor_pos (some t)) (t.paragraphs.get ⟨k, hk⟩).start_id
        = some (t.pos_y + TEXT_TOP_Y + sumLineHeights (t.paragraphs.take k)) ∧
    ((draw_text fmt t).2[countEmitted (t.paragraphs.take k)]?).map TextRec.yorg
        = some (t.pos_y + TEXT_TOP_Y + sumLineHeights (t.paragraphs.take k)
            + lineHeight (t.paragraphs.get ⟨k, hk⟩).style) := by
  constructor
  · show dictLookup (buildAnchorGo t.paragraphs (t.pos_y + TEXT_TOP_Y)
      specialAnchors) _ = _
    exact buildAnchorGo_lookup_at _ k hk _ _ hfresh
  · have h := (drawTextGo_get_emitted fmt t.pos_x t.pos_y t.paragraphs k hk
      TEXT_TOP_Y hne).2
    show ((drawTextGo fmt t.pos_x t.pos_y t.paragraphs TEXT_TOP_Y).2[
      countEmitted (t.paragraphs.take k)]?).map TextRec.yorg = _
    rw [h]
    simp only [Option.map_some']
    congr 1
    rw [sumLineHeights_take_succ t.paragraphs k hk]
    ring

/-- C2 witness: the offset relation evaluated for the second paragraph of a
concrete document (`anchor = 20 - 88 + 70 = 2`, `yorg = 2 + 150 = 152`). -/
theorem C2_witness :
    dictLookup (build_anchor_pos (some textTwo))
        (textTwo.paragraphs.get ⟨1, by decide⟩).start_id
      = some (textTwo.pos_y + TEXT_TOP_Y + sumLineHeights (textTwo.paragraphs.take 1)) ∧
    ((draw_text fmt0 textTwo).2[countEmitted (textTwo.paragraphs.take 1)]?).map
        TextRec.yorg
      = some (textTwo.pos_y + TEXT_TOP_Y + sumLineHeights (textTwo.paragraphs.take 1)
          + lineHeight (textTwo.paragraphs.get ⟨1, by decide⟩).style) :=
  C2_anchor_vs_text_offset fmt0 textTwo 1 (by decide) (by decide) (by decide)

/-! ## Claim C3 -/

/-- C3 counterexample: the whitespace-only paragraph has empty *trimmed*
text, yet the conversion writes two stream elements (one SVG fragment plus
the JSON object) and produces one JSON text record — so trimming is not the
emission condition the claim states. -/
theorem C3_counterexample :
    (tree_to_json pc1 dumps0 fmt0 treeWs).map List.length = some 2 ∧
    (draw_text fmt0 textWs).1.length = 1 ∧
    (draw_text fmt0 textWs).2.length = 1 ∧
    pyStrip (paraText paraWs) = "" := by
  refine ⟨by decide, by decide, by decide, by decide⟩

/-- C3 (amended): for a text root, `tree_to_json` writes every `draw_text`
SVG fragment into the output stream before the single final JSON object;
one fragment is emitted per paragraph whose *untrimmed* concatenated text is
non-empty (so a whitespace-only paragraph still emits), in paragraph order;
and the fragment of the paragraph at index `k` is positioned at the offset
accumulated over all preceding paragraphs, empty ones included. -/
theorem C3_svg_fragments :
    (∀ (pc : PenCreate) (dumps : JsonResult → String) (fmt : Rat → String)
        (tree : SceneTree) (t : Text) (out : List String),
        tree.root_text = some t → tree_to_json pc dumps fmt tree = some out →
        out.dropLast = (draw_text fmt t).1 ∧
        out.length = (draw_text fmt t).1.length + 1) ∧
    (∀ (fmt : Rat → String) (t : Text),
        (draw_text fmt t).1.length =
          (t.paragraphs.filter (fun p => !(paraText p).isEmpty)).length) ∧
    (∀ (fmt : Rat → String) (t : Text) (k : Nat) (hk : k < t.paragraphs.length),
        (paraText (t.paragraphs.get ⟨k, hk⟩)).isEmpty = false →
        (draw_text fmt t).1[countEmitted (t.paragraphs.take k)]? =
          some (svgTextFragment fmt (scale t.pos_x)
            (scale (t.pos_y + TEXT_TOP_Y + sumLineHeights (t.paragraphs.take (k + 1))))
            (styleName (t.paragraphs.get ⟨k, hk⟩).style)
            (pyStrip (paraText (t.paragraphs.get ⟨k, hk⟩))))) := by
  refine ⟨?_, ?_, ?_⟩
  · intro pc dumps fmt tree t out ht hout
    unfold tree_to_json at hout
    rw [ht] at hout
    dsimp only at hout
    split at hout
    · exact absurd hout (by simp)
    · split at hout
      · exact absurd hout (by simp)
      · simp only [Option.some_inj] at hout
        subst hout
        constructor
        · simp
        · simp
  · intro fmt t
    exact drawTextGo_writes_length fmt t.pos_x t.pos_y t.paragraphs TEXT_TOP_Y
  · intro fmt t k hk hne
    exact (drawTextGo_get_emitted fmt t.pos_x t.pos_y t.paragraphs k hk
      TEXT_TOP_Y hne).1

/-- C3 witness: the amended theorem evaluated on a concrete tree. -/
theorem C3_witness :
    (tree_to_json pc1 dumps0 fmt0 treeOne).map List.dropLast
      = some (draw_text fmt0 textOne).1 ∧
    (draw_text fmt0 textOne).1.length
      = (textOne.paragraphs.filter (fun p => !(paraText p).isEmpty)).length ∧
    (draw_text fmt0 textOne).1[(0 : Nat)]?
      = some "\t\t\t<text x=\"\" y=\"\" class=\"heading\">ab</text>\n" := by
  refine ⟨?_, C3_svg_fragments.2.1 fmt0 textOne, ?_⟩
  · rcases heq : tree_to_json pc1 dumps0 fmt0 treeOne with _ | out
    · exact absurd heq (by decide)
    · exact congrArg some
        ((C3_svg_fragments.1 pc1 dumps0 fmt0 treeOne textOne out rfl heq).1)
  · have h := C3_svg_fragments.2.2 fmt0 textOne 0 (by decide) (by decide)
    exact h.trans (by decide)

end Rmc

namespace Rmc

/-! ## Claim C1 -/

theorem drawStrokeGo_length_one (pen : Pen) (h : pen.segment_length = 1)
    (ax ay : Int) (fl : Bool) (ps : List Point) : ∀ (i : Nat) (w : Int),
    (drawStrokeGo pen ax ay fl ps i w).length = ps.length := by
  induction ps with
  | nil => intro i w; rfl
  | cons p ps ih =>
    intro i w
    simp [drawStrokeGo, h, Nat.mod_one, ih]

theorem draw_stroke_length_one (pc : PenCreate)
    (hs : ∀ t c th, (pc t c th).segment_length = 1) (l : Line) (ax ay : Int)
    (fl : Bool) : (draw_stroke pc l ax ay fl).length = l.points.length :=
  drawStrokeGo_length_one _ (hs _ _ _) _ _ _ _ 0 0

mutual
theorem drawItem_length (pc : PenCreate)
    (hs : ∀ t c th, (pc t c th).segment_length = 1) :
    ∀ (c : SceneItem) (ap : AnchorPos) (ax ay : Int) (recs : List PointRecord),
      drawItem pc c ap ax ay = some recs → recs.length = totalPoints c
  | .group g ch, ap, ax, ay, recs => by
    intro h
    unfold drawItem at h
    rcases hga : get_anchor g ap with _ | ⟨gx, gy⟩
    · rw [hga] at h
      exact absurd h (by simp)
    · rw [hga] at h
      exact drawChildren_length pc hs ch ap gx gy recs h
  | .line l, ap, ax, ay, recs => by
    intro h
    simp only [drawItem, Option.some_inj] at h
    subst h
    exact draw_stroke_length_one pc hs l ax ay true
  | .other, ap, ax, ay, recs => by
    intro h
    simp only [drawItem, Option.some_inj] at h
    subst h
    rfl

theorem drawChildren_length (pc : PenCreate)
    (hs : ∀ t c th, (pc t c th).segment_length = 1) :
    ∀ (cs : List SceneItem) (ap : AnchorPos) (ax ay : Int)
      (recs : List PointRecord),
      drawChildren pc cs ap ax ay = some recs → recs.length = totalPointsList cs
  | [], ap, ax, ay, recs => by
    intro h
    simp only [drawChildren, Option.some_inj] at h
    subst h
    rfl
  | c :: cs, ap, ax, ay, recs => by
    intro h
    unfold drawChildren at h
    rcases hc : drawItem pc c ap ax ay with _ | sub
    · rw [hc] at h
      exact absurd h (by simp)
    · rw [hc] at h
      rcases hcs : drawChildren pc cs ap ax ay with _ | rest
      · rw [hcs] at h
        exact absurd h (by simp)
      · rw [hcs] at h
        simp only [Option.some_inj] at h
        subst h
        have h1 := drawItem_length pc hs c ap ax ay sub hc
        have h2 := drawChildren_length pc hs cs ap ax ay rest hcs
        simp [totalPointsList, h1, h2]
end

/-- C1 counterexample: with a pen model of segment length 2, a single
two-point stroke yields one point record while the tree holds two points,
so the flattened record count does *not* equal the total point count
regardless of the pen model's segment length. -/
theorem C1_counterexample :
    (draw_group pc2 gd0 [SceneItem.line lineTwo] []).map List.length ≠
      some (totalPoints (SceneItem.group gd0 [SceneItem.line lineTwo])) ∧
    (draw_group pc2 gd0 [SceneItem.line lineTwo] []).map List.length = some 1 ∧
    totalPoints (SceneItem.group gd0 [SceneItem.line lineTwo]) = 2 := by
  refine ⟨by decide, by decide, by decide⟩

/-- C1 (amended): when every pen the pen model produces has segment length
1, the flattened stroke walk yields exactly one point record per raw point:
its record count equals the total number of points across every `Line` in
the tree.  (In general `draw_stroke` appends one record per *segment
start*, i.e. one per `segment_length` points, so the equality fails for
longer segment lengths.) -/
theorem C1_flatten_point_count (pc : PenCreate)
    (hs : ∀ t c th, (pc t c th).segment_length = 1)
    (g : GroupData) (ch : List SceneItem) (ap : AnchorPos)
    (recs : List PointRecord) (h : draw_group pc g ch ap = some recs) :
    recs.length = totalPoints (SceneItem.group g ch) := by
  unfold draw_group at h
  rcases hga : get_anchor g ap with _ | ⟨ax, ay⟩
  · rw [hga] at h
    exact absurd h (by simp)
  · rw [hga] at h
    exact drawChildren_length pc hs ch ap ax ay recs h

/-- C1 witness: the amended theorem evaluated on a concrete tree with a
segment-length-1 pen model. -/
theorem C1_witness :
    (draw_group pc1 gd0 [SceneItem.line lineOne] []).map List.length =
      some (totalPoints (SceneItem.group gd0 [SceneItem.line lineOne])) := by
  rcases heq : draw_group pc1 gd0 [SceneItem.line lineOne] [] with _ | recs
  · exact absurd heq (by decide)
  · exact congrArg some
      (C1_flatten_point_count pc1 (fun _ _ _ => rfl) gd0 _ [] recs heq)

end Rmc

namespace Rmc

/-! ## Claim C4 -/

theorem drawChildrenCumulative_flat (pc : PenCreate) :
    ∀ (cs : List SceneItem), noChildGroups cs = true → ∀ (ap : AnchorPos)
      (cx cy : Int),
      drawChildrenCumulative pc cs ap cx cy = drawChildren pc cs ap cx cy := by
  intro cs
  induction cs with
  | nil => intro h ap cx cy; rfl
  | cons c cs ih =>
    intro h ap cx cy
    cases c with
    | group g2 ch2 => exact absurd h (by simp [noChildGroups])
    | line l =>
      have h' : noChildGroups cs = true := by simpa [noChildGroups] using h
      simp only [drawChildrenCumulative, drawItemCumulative, drawChildren,
        drawItem]
      rw [ih h' ap cx cy]
    | other =>
      have h' : noChildGroups cs = true := by simpa [noChildGroups] using h
      simp only [drawChildrenCumulative, drawItemCumulative, drawChildren,
        drawItem]
      rw [ih h' ap cx cy]

theorem drawChildren_shallow (pc : PenCreate) :
    ∀ (cs : List SceneItem), shallowChildren cs = true → ∀ (ap : AnchorPos),
      drawChildren pc cs ap 0 0 = drawChildrenCumulative pc cs ap 0 0 := by
  intro cs
  induction cs with
  | nil => intro h ap; rfl
  | cons c cs ih =>
    intro h ap
    cases c with
    | group g2 ch2 =>
      have h12 : noChildGroups ch2 = true ∧ shallowChildren cs = true := by
        simpa [shallowChildren, Bool.and_eq_true] using h
      simp only [drawChildren, drawItem, drawChildrenCumulative,
        drawItemCumulative]
      rcases hga : get_anchor g2 ap with _ | ⟨gx, gy⟩
      · rfl
      · simp only [zero_add]
        rw [ih h12.2 ap, drawChildrenCumulative_flat pc ch2 h12.1 ap gx gy]
    | line l =>
      have h' : shallowChildren cs = true := by
        simpa [shallowChildren] using h
      simp only [drawChildren, drawItem, drawChildrenCumulative,
        drawItemCumulative]
      rw [ih h' ap]
    | other =>
      have h' : shallowChildren cs = true := by
        simpa [shallowChildren] using h
      simp only [drawChildren, drawItem, drawChildrenCumulative,
        drawItemCumulative]
      rw [ih h' ap]

/-- C4 counterexample: in a depth-two tree (anchored group wrapping a plain
group wrapping a stroke) the flattened walk records the stroke with anchor
offset 0 — the anchor of its *immediate* parent only — while the
cumulative-ancestor translation used by the bounding-box combination gives
offset 100, so the two offsets differ. -/
theorem C4_counterexample :
    (draw_group pc1 gd0 chDeep apOne).map (List.map PointRecord.anchory)
      = some [0] ∧
    (drawGroupCumulative pc1 gd0 chDeep apOne 0 0).map
        (List.map PointRecord.anchory) = some [100] ∧
    (some [(0 : Int)] : Option (List Int)) ≠ some [100] := by
  refine ⟨by decide, by decide, by decide⟩

/-- C4 (amended): the flattened walk translates each stroke by the anchor
offset of its immediate parent group only.  This coincides with the
cumulative ancestor offset applied by the bounding-box walk exactly when no
anchor above an immediate parent can contribute: when the root carries no
anchor id and group nesting is at most one level deep. -/
theorem C4_immediate_anchor (pc : PenCreate) (g : GroupData)
    (ch : List SceneItem) (ap : AnchorPos) (hroot : g.anchor_id = none)
    (hsh : shallowChildren ch = true) :
    draw_group pc g ch ap = drawGroupCumulative pc g ch ap 0 0 := by
  have hga : get_anchor g ap = some (0, 0) := by
    unfold get_anchor
    rw [hroot]
  unfold draw_group drawGroupCumulative
  rw [hga]
  simp only [zero_add]
  exact drawChildren_shallow pc ch hsh ap

/-- C4 witness: the amended theorem evaluated on a concrete depth-one tree
with a resolvable anchor. -/
theorem C4_witness :
    draw_group pc1 gd0 chShallow apOne =
      drawGroupCumulative pc1 gd0 chShallow apOne 0 0 :=
  C4_immediate_anchor pc1 gd0 chShallow apOne rfl (by decide)

end Rmc

namespace Rmc

/-! ## Totality analysis: exactly the `get_anchor` assertion can abort -/

theorem get_anchor_isSome (g : GroupData) (ap : AnchorPos) :
    (get_anchor g ap).isSome =
      (g.anchor_id.isNone || g.anchor_origin_x.isSome) := by
  cases h1 : g.anchor_id with
  | none => simp [get_anchor, h1]
  | some aid =>
    cases h2 : g.anchor_origin_x with
    | none => simp [get_anchor, h1, h2]
    | some ax =>
      cases h3 : dictLookup ap aid with
      | none => simp [get_anchor, h1, h2, h3]
      | some ay => simp [get_anchor, h1, h2, h3]

mutual
theorem drawItem_isSome (pc : PenCreate) :
    ∀ (c : SceneItem) (ap : AnchorPos) (ax ay : Int),
      (drawItem pc c ap ax ay).isSome = okAnchors c
  | .group g ch, ap, ax, ay => by
    simp only [drawItem, okAnchors]
    cases hga : get_anchor g ap with
    | none =>
      have hg := get_anchor_isSome g ap
      rw [hga] at hg
      simp only [Option.isSome_none] at hg
      simp [← hg]
    | some a =>
      obtain ⟨gx, gy⟩ := a
      have hg := get_anchor_isSome g ap
      rw [hga] at hg
      simp only [Option.isSome_some] at hg
      rw [← hg, Bool.true_and]
      exact drawChildren_isSome pc ch ap gx gy

  | .line l, ap, ax, ay => by simp [drawItem, okAnchors]
  | .other, ap, ax, ay => by simp [drawItem, okAnchors]

theorem drawChildren_isSome (pc : PenCreate) :
    ∀ (cs : List SceneItem) (ap : AnchorPos) (ax ay : Int),
      (drawChildren pc cs ap ax ay).isSome = okAnchorsList cs
  | [], ap, ax, ay => by simp [drawChildren, okAnchorsList]
  | c :: cs, ap, ax, ay => by
    simp only [drawChildren, okAnchorsList]
    have h1 := drawItem_isSome pc c ap ax ay
    have h2 := drawChildren_isSome pc cs ap ax ay
    cases hc : drawItem pc c ap ax ay with
    | none =>
      rw [hc] at h1
      simp only [Option.isSome_none] at h1
      simp [← h1]
    | some sub =>
      rw [hc] at h1
      simp only [Option.isSome_some] at h1
      cases hcs : drawChildren pc cs ap ax ay with
      | none =>
        rw [hcs] at h2
        simp only [Option.isSome_none] at h2
        simp [← h1, ← h2]
      | some rest =>
        rw [hcs] at h2
        simp only [Option.isSome_some] at h2
        simp [← h1, ← h2]
end

theorem draw_group_isSome (pc : PenCreate) (g : GroupData)
    (ch : List SceneItem) (ap : AnchorPos) :
    (draw_group pc g ch ap).isSome = okAnchors (SceneItem.group g ch) := by
  simp only [draw_group, okAnchors]
  cases hga : get_anchor g ap with
  | none =>
    have hg := get_anchor_isSome g ap
    rw [hga] at hg
    simp only [Option.isSome_none] at hg
    simp [← hg]
  | some a =>
    obtain ⟨gx, gy⟩ := a
    have hg := get_anchor_isSome g ap
    rw [hga] at hg
    simp only [Option.isSome_some] at hg
    rw [← hg, Bool.true_and]
    exact drawChildren_isSome pc ch ap gx gy

mutual
theorem bboxItem_isSome :
    ∀ (c : SceneItem) (ap : AnchorPos),
      (bboxItem c ap).isSome = (match c with
        | SceneItem.group _ ch => okAnchorsList ch
        | _ => true)
  | .group g ch, ap => by
    simp only [bboxItem]
    exact bboxChildren_isSome ch ap (0, 0, 0, 0)
  | .line _, ap => by simp [bboxItem]
  | .other, ap => by simp [bboxItem]

theorem bboxChildren_isSome :
    ∀ (cs : List SceneItem) (ap : AnchorPos) (acc : Int × Int × Int × Int),
      (bboxChildren cs ap acc).isSome = okAnchorsList cs
  | [], ap, acc => by simp [bboxChildren, okAnchorsList]
  | c :: cs, ap, acc => by
    obtain ⟨x1, x2, y1, y2⟩ := acc
    have hrest := bboxChildren_isSome cs ap
    cases c with
    | group g ch =>
      simp only [bboxChildren, okAnchorsList, okAnchors]
      have hb := bboxItem_isSome (SceneItem.group g ch) ap
      simp only at hb
      cases hga : get_anchor g ap with
      | none =>
        have hg := get_anchor_isSome g ap
        rw [hga] at hg
        simp only [Option.isSome_none] at hg
        simp [← hg]
      | some a =>
        obtain ⟨gx, gy⟩ := a
        have hg := get_anchor_isSome g ap
        rw [hga] at hg
        simp only [Option.isSome_some] at hg
        cases hbi : bboxItem (SceneItem.group g ch) ap with
        | none =>
          rw [hbi] at hb
          simp only [Option.isSome_none] at hb
          simp [← hg, ← hb]
        | some bb =>
          obtain ⟨a1, a2, a3, a4⟩ := bb
          rw [hbi] at hb
          simp only [Option.isSome_some] at hb
          rw [hrest _]
          simp [← hg, ← hb]
    | line l =>
      simp only [bboxChildren, okAnchorsList, okAnchors]
      rw [hrest _]
      simp
    | other =>
      simp only [bboxChildren, okAnchorsList, okAnchors]
      rw [hrest _]
      simp
end

theorem tree_to_json_isSome (pc : PenCreate) (dumps : JsonResult → String)
    (fmt : Rat → String) (tree : SceneTree) :
    (tree_to_json pc dumps fmt tree).isSome =
      okAnchors (SceneItem.group tree.root_data tree.root_children) := by
  have hbbS := bboxChildren_isSome tree.root_children
    (build_anchor_pos tree.root_text) bboxDefault
  have hdgS := draw_group_isSome pc tree.root_data tree.root_children
    (build_anchor_pos tree.root_text)
  unfold tree_to_json
  dsimp only
  cases hbb : get_bounding_box tree.root_data tree.root_children
      (build_anchor_pos tree.root_text) bboxDefault with
  | none =>
    rw [show (bboxChildren tree.root_children (build_anchor_pos tree.root_text)
        bboxDefault) = none from hbb] at hbbS
    simp only [Option.isSome_none] at hbbS
    simp [okAnchors, ← hbbS]
  | some bb =>
    obtain ⟨b1, b2, b3, b4⟩ := bb
    dsimp only
    cases hdg : draw_group pc tree.root_data tree.root_children
        (build_anchor_pos tree.root_text) with
    | none =>
      rw [hdg] at hdgS
      simp only [Option.isSome_none] at hdgS
      simp [← hdgS]
    | some pts =>
      rw [hdg] at hdgS
      simp only [Option.isSome_some] at hdgS
      simp [← hdgS]

end Rmc

namespace Rmc

/-! ## Claim C8 -/

/-- C8: a drawing root with no children gets exactly the default box
`(-702, 702, 0, 1872)` (half the 1404-unit screen width each side, the full
1872-unit screen height); and a nested recursive call uses the all-zero
default, so an anchored childless subgroup whose anchor offset lies within
the screen does not distort the parent's extent at all. -/
theorem C8_default_bbox :
    (∀ (g : GroupData) (ap : AnchorPos),
        get_bounding_box g [] ap bboxDefault = some (-702, 702, 0, 1872)) ∧
    (∀ (g gc : GroupData) (ap : AnchorPos) (aid : CrdtId) (ax ay : Int),
        gc.anchor_id = some aid → gc.anchor_origin_x = some ax →
        dictLookup ap aid = some ay →
        -702 ≤ ax → ax ≤ 702 → 0 ≤ ay → ay ≤ 1872 →
        get_bounding_box g [SceneItem.group gc []] ap bboxDefault =
          some (-702, 702, 0, 1872)) := by
  constructor
  · intro g ap
    show some bboxDefault = _
    decide
  · intro g gc ap aid ax ay h1 h2 h3 b1 b2 b3 b4
    have hga : get_anchor gc ap = some (ax, ay) := by
      unfold get_anchor
      rw [h1, h2]
      dsimp only
      rw [h3]
    show bboxChildren [SceneItem.group gc []] ap (-702, 702, 0, 1872) = _
    simp only [bboxChildren, bboxItem, hga]
    have e1 : min (-702 : Int) (0 + ax) = -702 := min_eq_left (by omega)
    have e2 : max (702 : Int) (0 + ax) = 702 := max_eq_left (by omega)
    have e3 : min (0 : Int) (0 + ay) = 0 := min_eq_left (by omega)
    have e4 : max (1872 : Int) (0 + ay) = 1872 := max_eq_left (by omega)
    rw [e1, e2, e3, e4]

/-- C8 witness: both parts of the theorem evaluated on concrete groups and
a concrete anchor table (`gAnchored` resolves to offset `(5, 100)`). -/
theorem C8_witness :
    get_bounding_box gd0 [] apOne bboxDefault = some (-702, 702, 0, 1872) ∧
    get_bounding_box gd0 [SceneItem.group gAnchored []] apOne bboxDefault =
      some (-702, 702, 0, 1872) :=
  ⟨C8_default_bbox.1 gd0 apOne,
   C8_default_bbox.2 gd0 gAnchored apOne ⟨1, 1⟩ 5 100 rfl rfl (by decide)
     (by decide) (by decide) (by decide) (by decide)⟩

/-! ## Claim C9 -/

/-- C9: a group whose anchor id is set but absent from the anchor table
resolves (after a logged warning) to x from its anchor origin-x and a
vertical offset of 0, and the surrounding conversion completes: whenever
every group satisfies the `get_anchor` assertion (`okAnchors`), the whole
`tree_to_json` conversion returns a result — missing anchors are recovered
locally, and the assertion of claim C10 is the only other, fatal, local
error source in `get_anchor`. -/
theorem C9_missing_anchor :
    (∀ (g : GroupData) (ap : AnchorPos) (aid : CrdtId) (ax : Int),
        g.anchor_id = some aid → g.anchor_origin_x = some ax →
        dictLookup ap aid = none → get_anchor g ap = some (ax, 0)) ∧
    (∀ (pc : PenCreate) (dumps : JsonResult → String) (fmt : Rat → String)
        (tree : SceneTree),
        okAnchors (SceneItem.group tree.root_data tree.root_children) = true →
        (tree_to_json pc dumps fmt tree).isSome = true) := by
  constructor
  · intro g ap aid ax h1 h2 h3
    unfold get_anchor
    rw [h1, h2]
    dsimp only
    rw [h3]
  · intro pc dumps fmt tree h
    rw [tree_to_json_isSome pc dumps fmt tree]
    exact h

/-- C9 witness: the missing-anchor resolution and the completed conversion
evaluated on a concrete tree containing an unresolvable anchor id. -/
theorem C9_witness :
    get_anchor gMissing specialAnchors = some (4, 0) ∧
    (tree_to_json pc1 dumps0 fmt0 treeMissing).isSome = true :=
  ⟨C9_missing_anchor.1 gMissing specialAnchors ⟨7, 7⟩ 4 rfl rfl (by decide),
   C9_missing_anchor.2 pc1 dumps0 fmt0 treeMissing (by decide)⟩

/-! ## Claim C10 -/

/-- C10: a group whose anchor id is set but whose anchor origin-x is absent
makes `get_anchor` fail its assertion — before any anchor lookup, for every
anchor table — and a tree containing such a group anywhere makes the whole
conversion abort (`none`, the propagating `AssertionError`). -/
theorem C10_assert_aborts :
    (∀ (g : GroupData) (ap : AnchorPos) (aid : CrdtId),
        g.anchor_id = some aid → g.anchor_origin_x = none →
        get_anchor g ap = none) ∧
    (∀ (pc : PenCreate) (dumps : JsonResult → String) (fmt : Rat → String)
        (tree : SceneTree),
        okAnchors (SceneItem.group tree.root_data tree.root_children) = false →
        tree_to_json pc dumps fmt tree = none) := by
  constructor
  · intro g ap aid h1 h2
    unfold get_anchor
    rw [h1, h2]
  · intro pc dumps fmt tree h
    have hS := tree_to_json_isSome pc dumps fmt tree
    rw [h] at hS
    cases htj : tree_to_json pc dumps fmt tree with
    | none => rfl
    | some v =>
      rw [htj] at hS
      simp at hS

/-- C10 witness: the assertion failure and the aborted conversion evaluated
on a concrete tree containing the violating group. -/
theorem C10_witness :
    get_anchor gBad [] = none ∧
    tree_to_json pc1 dumps0 fmt0 treeBad = none :=
  ⟨C10_assert_aborts.1 gBad [] ⟨1, 1⟩ rfl rfl,
   C10_assert_aborts.2 pc1 dumps0 fmt0 treeBad (by decide)⟩

end Rmc
